import Mathlib

/-!
Verification of the Funko record-store application: a shallow embedding of
the record model (`funko.ts`, `crear-funko.ts`), the storage manager
(`gestor-funko.ts`), the request dispatcher and the line-feed framing layer
(`servidor.ts`), together with theorems settling the specification claims.

Modelling conventions:
* The filesystem is explicit state: a list of per-user directories, each a
  list of named files.  OS-level I/O failures (mkdir/readdir/write errors)
  are outside the model — every modelled operation's I/O succeeds, matching
  the claims, which all condition on I/O success.  The `Option`-shaped
  results of the storage functions keep the source's error plumbing.
* JSON serialization is abstracted: `Contenido.funko f` stands for the
  `JSON.stringify` encoding of record `f` (which `JSON.parse` recovers
  intact, JSON round-tripping being the identity on these records), and
  `Contenido.corrupto s` stands for file text on which `JSON.parse` throws.
* JavaScript numbers for ids and counts are modelled as `Int`, market
  values as `Rat`; `===` on them is decidable equality.
* Callback-passing style becomes explicit state passing; the storage chain
  of each request runs to completion before the next request (the claims
  all stipulate sequential, non-interleaved processing).
-/

/-- Enumerado `TipoFunko` de `funko.ts`. -/
inductive TipoFunko where
  | Pop
  | PopRides
  | VynilSoda
  | VynilGold
deriving DecidableEq, Repr

/-- Enumerado `GeneroFunko` de `funko.ts`. -/
inductive GeneroFunko where
  | Animacion
  | PeliculasTV
  | Videojuegos
  | Deportes
  | Musica
  | Anime
deriving DecidableEq, Repr

/-- Interfaz `Funko` de `funko.ts`: los diez campos del registro. -/
structure Funko where
  id : Int
  nombre : String
  descripcion : String
  tipo : TipoFunko
  genero : GeneroFunko
  franquicia : String
  numero : Int
  exclusivo : Bool
  caracteristicasEspeciales : String
  valorMercado : Rat
deriving DecidableEq, Repr

/-- `crearFunko` de `crear-funko.ts`: rechaza (devuelve `undefined`,
aquí `none`) cuando `valorMercado <= 0`; en otro caso construye el
registro copiando los diez argumentos sin modificación. -/
def crearFunko (id : Int) (nombre : String) (descripcion : String)
    (tipo : TipoFunko) (genero : GeneroFunko) (franquicia : String)
    (numero : Int) (exclusivo : Bool) (caracteristicasEspeciales : String)
    (valorMercado : Rat) : Option Funko :=
  if valorMercado ≤ 0 then
    none
  else
    some {
      id := id
      nombre := nombre
      descripcion := descripcion
      tipo := tipo
      genero := genero
      franquicia := franquicia
      numero := numero
      exclusivo := exclusivo
      caracteristicasEspeciales := caracteristicasEspeciales
      valorMercado := valorMercado
    }

/-- Content of one stored file: either the JSON serialization of a record
(recovered intact by `JSON.parse`) or text on which `JSON.parse` throws. -/
inductive Contenido where
  | funko (f : Funko)
  | corrupto (s : String)
deriving DecidableEq, Repr

/-- One directory entry: file name and content. -/
structure Archivo where
  nombre : String
  contenido : Contenido
deriving DecidableEq, Repr

/-- The modelled filesystem: each entry maps a user name to the user's
directory (present exactly when the directory exists on disk). -/
structure SistemaArchivos where
  dirs : List (String × List Archivo)
deriving DecidableEq, Repr

/-- Directory lookup (the key is the user name). -/
def buscarDirectorio : List (String × List Archivo) → String → Option (List Archivo)
  | [], _ => none
  | (u, d) :: rest, usuario => if u = usuario then some d else buscarDirectorio rest usuario

/-- Replace a user's directory, inserting it if absent. -/
def actualizarDirectorio : List (String × List Archivo) → String → List Archivo →
    List (String × List Archivo)
  | [], usuario, dir => [(usuario, dir)]
  | (u, d) :: rest, usuario, dir =>
    if u = usuario then (usuario, dir) :: rest
    else (u, d) :: actualizarDirectorio rest usuario dir

/-- `fs.writeFile`: truncate/overwrite the file of that name if present,
create it otherwise. -/
def escribirArchivo : List Archivo → String → Contenido → List Archivo
  | [], nombre, c => [⟨nombre, c⟩]
  | a :: rest, nombre, c =>
    if a.nombre = nombre then ⟨nombre, c⟩ :: rest
    else a :: escribirArchivo rest nombre c

/-- `fs.unlink`: remove the file of that name; `none` signals the ENOENT
error when it is absent. -/
def eliminarArchivo : List Archivo → String → Option (List Archivo)
  | [], _ => none
  | a :: rest, nombre =>
    if a.nombre = nombre then some rest
    else
      match eliminarArchivo rest nombre with
      | none => none
      | some rest2 => some (a :: rest2)

/-- Index of the last occurrence of a dot in a character list. -/
def posUltimoPunto : List Char → Option Nat
  | [] => none
  | c :: rest =>
    match posUltimoPunto rest with
    | some i => some (i + 1)
    | none => if c = '.' then some 0 else none

/-- Node's `path.extname`, restricted to a bare directory-entry name (as the
source applies it: the entry name is the final path segment): the substring
from the last dot, unless there is no dot or the only dot opens the name. -/
def extname (nombre : String) : String :=
  match posUltimoPunto nombre.data with
  | none => ""
  | some 0 => ""
  | some i => ⟨nombre.data.drop i⟩

/-- The `path.extname(rutaArchivo) === ".json"` record-file test of
`cargarFunkosUsuario`. -/
def esArchivoJson (nombre : String) : Bool :=
  extname nombre = ".json"

/-- File name `<ID>.json` used by `guardarFunko` and `eliminarFunko`. -/
def nombreFichero (id : Int) : String :=
  toString id ++ ".json"

/-- `GestorFunko.obtenerDirectorioUsuario`: ensure the user's directory
exists (recursive creation), returning its path; in the model directory
creation always succeeds, so the result path is always `some`. -/
def obtenerDirectorioUsuario (fs : SistemaArchivos) (usuario : String) :
    SistemaArchivos × Option String :=
  match buscarDirectorio fs.dirs usuario with
  | some _ => (fs, some ("datos/" ++ usuario))
  | none => (⟨actualizarDirectorio fs.dirs usuario []⟩, some ("datos/" ++ usuario))

/-- The per-file read-and-decode loop of `cargarFunkosUsuario`: files whose
extension is not `.json` are ignored; `.json` files whose content fails
`JSON.parse` are silently skipped; the rest contribute their record. -/
def leerFunkos : List Archivo → List Funko
  | [] => []
  | a :: rest =>
    if esArchivoJson a.nombre then
      match a.contenido with
      | Contenido.funko f => f :: leerFunkos rest
      | Contenido.corrupto _ => leerFunkos rest
    else
      leerFunkos rest

/-- `GestorFunko.cargarFunkosUsuario`: ensure the directory, list it and
decode every `.json` entry; `none` is the `undefined` of the source
(directory could not be ensured or listed — unreachable in the model). -/
def cargarFunkosUsuario (fs : SistemaArchivos) (usuario : String) :
    SistemaArchivos × Option (List Funko) :=
  let paso := obtenerDirectorioUsuario fs usuario
  match paso.2 with
  | none => (paso.1, none)
  | some _ =>
    match buscarDirectorio paso.1.dirs usuario with
    | none => (paso.1, none)
    | some archivos => (paso.1, some (leerFunkos archivos))

/-- `GestorFunko.guardarFunko`: ensure the directory, then write the
serialized record to the file named `<ID>.json`, overwriting any existing
file of that name; `true` reports success. -/
def guardarFunko (fs : SistemaArchivos) (usuario : String) (funko : Funko) :
    SistemaArchivos × Bool :=
  let paso := obtenerDirectorioUsuario fs usuario
  match paso.2 with
  | none => (paso.1, false)
  | some _ =>
    match buscarDirectorio paso.1.dirs usuario with
    | none => (paso.1, false)
    | some archivos =>
      (⟨actualizarDirectorio paso.1.dirs usuario
          (escribirArchivo archivos (nombreFichero funko.id) (Contenido.funko funko))⟩,
        true)

/-- `GestorFunko.eliminarFunko`: ensure the directory, then unlink
`<ID>.json`; absence of the file surfaces as `false`. -/
def eliminarFunko (fs : SistemaArchivos) (usuario : String) (idFunko : Int) :
    SistemaArchivos × Bool :=
  let paso := obtenerDirectorioUsuario fs usuario
  match paso.2 with
  | none => (paso.1, false)
  | some _ =>
    match buscarDirectorio paso.1.dirs usuario with
    | none => (paso.1, false)
    | some archivos =>
      match eliminarArchivo archivos (nombreFichero idFunko) with
      | none => (paso.1, false)
      | some archivos2 =>
        (⟨actualizarDirectorio paso.1.dirs usuario archivos2⟩, true)

/-- `TipoPeticion` de `servidor.ts`; `tipo` is a runtime string (the TS
literal-union annotation is not enforced by `JSON.parse`, and the switch
has a default branch for any other value). -/
structure TipoPeticion where
  tipo : String
  usuario : String
  funko : Option Funko
  id : Option Int
deriving DecidableEq, Repr

/-- `TipoRespuesta` de `servidor.ts`. -/
structure TipoRespuesta where
  tipo : String
  exito : Bool
  mensaje : String
  funkos : Option (List Funko)
deriving DecidableEq, Repr

/-- `procesarPeticion` de `servidor.ts`: the request dispatcher, one branch
per request kind plus the unsupported-operation default. -/
def procesarPeticion (fs : SistemaArchivos) (p : TipoPeticion) :
    SistemaArchivos × TipoRespuesta :=
  if p.tipo = "add" then
    match p.funko with
    | none => (fs, ⟨p.tipo, false, "No se recibió Funko para añadir.", none⟩)
    | some funko =>
      let carga := cargarFunkosUsuario fs p.usuario
      match carga.2 with
      | none => (carga.1, ⟨p.tipo, false, "Error leyendo Funkos del usuario.", none⟩)
      | some lista =>
        if lista.any fun f => f.id == funko.id then
          (carga.1, ⟨p.tipo, false,
            "El Funko con ID " ++ toString funko.id ++ " ya existe para " ++
              p.usuario ++ ".", none⟩)
        else
          let guardado := guardarFunko carga.1 p.usuario funko
          (guardado.1, ⟨p.tipo, guardado.2,
            if guardado.2 then
              "Funko ID " ++ toString funko.id ++ " añadido a " ++ p.usuario ++ "."
            else "No se pudo guardar el Funko.", none⟩)
  else if p.tipo = "update" then
    match p.funko, p.id with
    | some funko, some id =>
      let carga := cargarFunkosUsuario fs p.usuario
      match carga.2 with
      | none => (carga.1, ⟨p.tipo, false, "Error leyendo Funkos del usuario.", none⟩)
      | some lista =>
        if lista.any fun f => f.id == id then
          let guardado := guardarFunko carga.1 p.usuario funko
          (guardado.1, ⟨p.tipo, guardado.2,
            if guardado.2 then
              "Funko ID " ++ toString id ++ " actualizado en " ++ p.usuario ++ "."
            else "No se pudo actualizar el Funko.", none⟩)
        else
          (carga.1, ⟨p.tipo, false,
            "No existe Funko con ID " ++ toString id ++ " en " ++ p.usuario ++ ".",
            none⟩)
    | _, _ => (fs, ⟨p.tipo, false, "Datos incompletos para actualizar Funko.", none⟩)
  else if p.tipo = "remove" then
    match p.id with
    | none => (fs, ⟨p.tipo, false, "No se especificó ID para eliminar.", none⟩)
    | some id =>
      let borrado := eliminarFunko fs p.usuario id
      (borrado.1, ⟨p.tipo, borrado.2,
        if borrado.2 then
          "Funko ID " ++ toString id ++ " eliminado de " ++ p.usuario ++ "."
        else
          "No se pudo eliminar (o no existe) Funko con ID " ++ toString id ++ ".",
        none⟩)
  else if p.tipo = "list" then
    let carga := cargarFunkosUsuario fs p.usuario
    match carga.2 with
    | none => (carga.1, ⟨p.tipo, false, "Error leyendo Funkos del usuario.", none⟩)
    | some lista =>
      (carga.1, ⟨p.tipo, true, "Funkos listados de " ++ p.usuario ++ ".", some lista⟩)
  else if p.tipo = "read" then
    match p.id with
    | none => (fs, ⟨p.tipo, false, "No se especificó ID para leer.", none⟩)
    | some id =>
      let carga := cargarFunkosUsuario fs p.usuario
      match carga.2 with
      | none => (carga.1, ⟨p.tipo, false, "Error leyendo Funkos del usuario.", none⟩)
      | some lista =>
        match lista.find? fun f => f.id == id with
        | none =>
          (carga.1, ⟨p.tipo, false,
            "No se encontró Funko con ID " ++ toString id ++ " en " ++
              p.usuario ++ ".", none⟩)
        | some funkoEncontrado =>
          (carga.1, ⟨p.tipo, true,
            "Funko ID " ++ toString id ++ " encontrado en " ++ p.usuario ++ ".",
            some [funkoEncontrado]⟩)
  else
    (fs, ⟨p.tipo, false, "Operación no soportada.", none⟩)

/-- The `while ((index = buffer.indexOf("\n")) !== -1)` extraction loop of
the `data` handler: every line-feed-terminated segment is one complete
message, consumed in order; the bytes after the last line-feed remain
buffered. -/
def extraerMensajes : List Char → List (List Char) × List Char
  | [] => ([], [])
  | c :: rest =>
    let p := extraerMensajes rest
    if c = '\n' then ([] :: p.1, p.2)
    else
      match p.1 with
      | [] => ([], c :: p.2)
      | m :: ms => ((c :: m) :: ms, p.2)

/-- Processing of one complete framed message by the server's `data`
handler: `JSON.parse` (the `dec` parameter — an external primitive, kept
abstract) either fails, producing the synthesized failure response with
kind defaulted to `"list"` and no dispatch, or yields the request handed to
`procesarPeticion`. -/
def procesarMensaje (dec : List Char → Option TipoPeticion)
    (fs : SistemaArchivos) (msg : List Char) : SistemaArchivos × TipoRespuesta :=
  match dec msg with
  | none => (fs, ⟨"list", false, "Error al parsear JSON de la petición.", none⟩)
  | some peticion => procesarPeticion fs peticion

/-- Sequential processing of the extracted messages, collecting the
responses in dispatch order. -/
def procesarMensajes (dec : List Char → Option TipoPeticion) :
    SistemaArchivos → List (List Char) → SistemaArchivos × List TipoRespuesta
  | fs, [] => (fs, [])
  | fs, m :: ms =>
    let r := procesarMensaje dec fs m
    let resto := procesarMensajes dec r.1 ms
    (resto.1, r.2 :: resto.2)

/-- The server's `socket.on("data")` handler: append the chunk to the
connection buffer, extract every complete line-feed-delimited message,
process each in order, and keep the trailing partial message buffered.
Returns the new filesystem state, the new buffer and the responses
written, in order. -/
def manejarData (dec : List Char → Option TipoPeticion) (fs : SistemaArchivos)
    (buffer datos : List Char) : SistemaArchivos × List Char × List TipoRespuesta :=
  let ext := extraerMensajes (buffer ++ datos)
  let pr := procesarMensajes dec fs ext.1
  (pr.1, ext.2, pr.2)

/-- The user's directory as listed after `obtenerDirectorioUsuario`: the
existing one, or the freshly created empty one. -/
def dirUsuario (fs : SistemaArchivos) (usuario : String) : List Archivo :=
  (buscarDirectorio fs.dirs usuario).getD []

theorem buscar_actualizar_self (dirs : List (String × List Archivo))
    (usuario : String) (dir : List Archivo) :
    buscarDirectorio (actualizarDirectorio dirs usuario dir) usuario = some dir := by
  induction dirs with
  | nil => simp [actualizarDirectorio, buscarDirectorio]
  | cons par rest ih =>
    obtain ⟨u, d⟩ := par
    by_cases h : u = usuario
    · simp [actualizarDirectorio, buscarDirectorio, h]
    · simp [actualizarDirectorio, buscarDirectorio, h, ih]

theorem obtener_fst_dirs (fs : SistemaArchivos) (usuario : String) :
    buscarDirectorio (obtenerDirectorioUsuario fs usuario).1.dirs usuario =
      some (dirUsuario fs usuario) := by
  unfold obtenerDirectorioUsuario dirUsuario
  cases h : buscarDirectorio fs.dirs usuario with
  | none => simp [h, buscar_actualizar_self]
  | some d => simp [h]

theorem obtener_snd (fs : SistemaArchivos) (usuario : String) :
    (obtenerDirectorioUsuario fs usuario).2 = some ("datos/" ++ usuario) := by
  unfold obtenerDirectorioUsuario
  cases h : buscarDirectorio fs.dirs usuario <;> simp [h]

theorem cargar_eq (fs : SistemaArchivos) (usuario : String) :
    cargarFunkosUsuario fs usuario =
      ((obtenerDirectorioUsuario fs usuario).1,
        some (leerFunkos (dirUsuario fs usuario))) := by
  unfold cargarFunkosUsuario
  simp only [obtener_snd, obtener_fst_dirs]

theorem guardar_eq (fs : SistemaArchivos) (usuario : String) (funko : Funko) :
    guardarFunko fs usuario funko =
      (⟨actualizarDirectorio (obtenerDirectorioUsuario fs usuario).1.dirs usuario
          (escribirArchivo (dirUsuario fs usuario) (nombreFichero funko.id)
            (Contenido.funko funko))⟩,
        true) := by
  unfold guardarFunko
  simp only [obtener_snd, obtener_fst_dirs]

theorem posUltimoPunto_append_punto (l rest : List Char)
    (h : posUltimoPunto rest = none) :
    posUltimoPunto (l ++ '.' :: rest) = some l.length := by
  induction l with
  | nil => simp [posUltimoPunto, h]
  | cons c l ih => simp [posUltimoPunto, ih]

theorem toDigitsCore_length_le (b : Nat) :
    ∀ (fuel n : Nat) (ds : List Char),
      ds.length ≤ (Nat.toDigitsCore b fuel n ds).length := by
  intro fuel
  induction fuel with
  | zero => intro n ds; simp [Nat.toDigitsCore]
  | succ fuel ih =>
    intro n ds
    simp only [Nat.toDigitsCore]
    by_cases h : n / b = 0
    · simp [h]
    · simp only [h, if_false]
      calc ds.length ≤ (Nat.digitChar (n % b) :: ds).length := by simp
        _ ≤ _ := ih _ _

theorem toDigits_ne_nil (b n : Nat) : Nat.toDigits b n ≠ [] := by
  unfold Nat.toDigits
  simp only [Nat.toDigitsCore]
  by_cases h : n / b = 0
  · simp [h]
  · simp only [h, if_false]
    intro hcon
    have hle := toDigitsCore_length_le b n (n / b) [Nat.digitChar (n % b)]
    rw [hcon] at hle
    simp at hle

theorem toString_int_ne_nil (i : Int) : (toString i).data ≠ [] := by
  show (Int.repr i).data ≠ []
  cases i with
  | ofNat m =>
    show (Nat.repr m).data ≠ []
    show Nat.toDigits 10 m ≠ []
    exact toDigits_ne_nil 10 m
  | negSucc m =>
    show (("-" ++ Nat.repr (m + 1)) : String).data ≠ []
    rw [String.data_append]
    simp

theorem esArchivoJson_nombreFichero (i : Int) :
    esArchivoJson (nombreFichero i) = true := by
  have hdata : (nombreFichero i).data = (toString i).data ++ '.' :: ['j', 's', 'o', 'n'] := by
    show ((toString i ++ ".json") : String).data = _
    rw [String.data_append]
  obtain ⟨c, cs, hcs⟩ := List.exists_cons_of_ne_nil (toString_int_ne_nil i)
  have hpos : posUltimoPunto (nombreFichero i).data = some (cs.length + 1) := by
    rw [hdata, posUltimoPunto_append_punto _ _ (by rfl)]
    simp [hcs]
  simp only [esArchivoJson, extname, hpos]
  rw [hdata, hcs]
  have hdrop : List.drop (cs.length + 1) (c :: cs ++ ['.', 'j', 's', 'o', 'n']) =
      ['.', 'j', 's', 'o', 'n'] := by
    have h2 := List.drop_left (c :: cs) ['.', 'j', 's', 'o', 'n']
    simp only [List.length_cons] at h2
    simp [h2]
  rw [hdrop]
  rfl

theorem leer_completo {dir : List Archivo} {a : Archivo} {f : Funko}
    (hmem : a ∈ dir) (hc : a.contenido = Contenido.funko f)
    (hjson : esArchivoJson a.nombre = true) : f ∈ leerFunkos dir := by
  induction dir with
  | nil => cases hmem
  | cons b rest ih =>
    rw [List.mem_cons] at hmem
    rcases hmem with hmem | hmem
    · rw [← hmem]
      simp [leerFunkos, hjson, hc]
    · have hf := ih hmem
      unfold leerFunkos
      by_cases hj : esArchivoJson b.nombre
      · cases hcb : b.contenido with
        | funko g => simp [hj, hcb, hf]
        | corrupto s => simp [hj, hcb, hf]
      · simp [hj, hf]

theorem leer_correcto {dir : List Archivo} {f : Funko}
    (hmem : f ∈ leerFunkos dir) :
    ∃ a, a ∈ dir ∧ a.contenido = Contenido.funko f ∧ esArchivoJson a.nombre = true := by
  induction dir with
  | nil => cases hmem
  | cons b rest ih =>
    unfold leerFunkos at hmem
    by_cases hj : esArchivoJson b.nombre
    · cases hcb : b.contenido with
      | funko g =>
        rw [hcb] at hmem
        simp only [hj, if_true, List.mem_cons] at hmem
        rcases hmem with hmem | hmem
        · exact ⟨b, List.mem_cons_self b rest, by rw [hcb, hmem], hj⟩
        · obtain ⟨a, ha, hac, haj⟩ := ih hmem
          exact ⟨a, List.mem_cons_of_mem b ha, hac, haj⟩
      | corrupto s =>
        rw [hcb] at hmem
        simp only [hj, if_true] at hmem
        obtain ⟨a, ha, hac, haj⟩ := ih hmem
        exact ⟨a, List.mem_cons_of_mem b ha, hac, haj⟩
    · simp only [hj, if_false] at hmem
      obtain ⟨a, ha, hac, haj⟩ := ih hmem
      exact ⟨a, List.mem_cons_of_mem b ha, hac, haj⟩

theorem mem_escribirArchivo_self (dir : List Archivo) (n : String) (c : Contenido) :
    (⟨n, c⟩ : Archivo) ∈ escribirArchivo dir n c := by
  induction dir with
  | nil => simp [escribirArchivo]
  | cons a rest ih =>
    unfold escribirArchivo
    by_cases h : a.nombre = n
    · simp [h]
    · simp [h, ih]

theorem mem_escribirArchivo {dir : List Archivo} {n : String} {c : Contenido}
    {a : Archivo} (hmem : a ∈ escribirArchivo dir n c) :
    a = ⟨n, c⟩ ∨ a ∈ dir := by
  induction dir with
  | nil =>
    simp only [escribirArchivo, List.mem_singleton] at hmem
    exact Or.inl hmem
  | cons b rest ih =>
    unfold escribirArchivo at hmem
    by_cases h : b.nombre = n
    · simp only [h, if_true, List.mem_cons] at hmem
      rcases hmem with hmem | hmem
      · exact Or.inl hmem
      · exact Or.inr (List.mem_cons_of_mem b hmem)
    · simp only [h, if_false, List.mem_cons] at hmem
      rcases hmem with hmem | hmem
      · exact Or.inr (by rw [hmem]; exact List.mem_cons_self b rest)
      · rcases ih hmem with h2 | h2
        · exact Or.inl h2
        · exact Or.inr (List.mem_cons_of_mem b h2)

theorem mem_leerFunkos_escribir {dir : List Archivo} {n : String} {r f : Funko}
    (hmem : f ∈ leerFunkos (escribirArchivo dir n (Contenido.funko r))) :
    f = r ∨ f ∈ leerFunkos dir := by
  obtain ⟨a, ha, hac, haj⟩ := leer_correcto hmem
  rcases mem_escribirArchivo ha with h | h
  · left
    rw [h] at hac
    simp at hac
    exact hac.symm
  · right
    exact leer_completo h hac haj

theorem extraerMensajes_sin_salto {l : List Char} (h : '\n' ∉ l) :
    extraerMensajes l = ([], l) := by
  induction l with
  | nil => rfl
  | cons c rest ih =>
    have hc : c ≠ '\n' := fun he => h (he ▸ List.mem_cons_self c rest)
    have hrest : '\n' ∉ rest := fun hm => h (List.mem_cons_of_mem c hm)
    unfold extraerMensajes
    rw [ih hrest]
    simp [hc]

theorem extraerMensajes_append {l : List Char} (rest : List Char) (hl : '\n' ∉ l) :
    extraerMensajes (l ++ '\n' :: rest) =
      (l :: (extraerMensajes rest).1, (extraerMensajes rest).2) := by
  induction l with
  | nil => simp [extraerMensajes]
  | cons c l ih =>
    have hc : c ≠ '\n' := fun he => hl (he ▸ List.mem_cons_self c l)
    have hl2 : '\n' ∉ l := fun hm => hl (List.mem_cons_of_mem c hm)
    rw [List.cons_append]
    unfold extraerMensajes
    rw [ih hl2]
    simp only [hc, if_false]
    cases rest <;> rfl

/-- A directory entry that `cargarFunkosUsuario` skips: a file without the
record extension, or a record-extension file whose content fails
`JSON.parse`. -/
def descartado (a : Archivo) : Prop :=
  esArchivoJson a.nombre = false ∨ ∃ s, a.contenido = Contenido.corrupto s

theorem leerFunkos_append (l1 l2 : List Archivo) :
    leerFunkos (l1 ++ l2) = leerFunkos l1 ++ leerFunkos l2 := by
  induction l1 with
  | nil => rfl
  | cons a rest ih =>
    rw [List.cons_append]
    unfold leerFunkos
    by_cases hj : esArchivoJson a.nombre
    · cases hc : a.contenido with
      | funko f =>
        simp [hj, hc, ih]
        cases l2 <;> rfl
      | corrupto s =>
        simp [hj, hc, ih]
        cases l2 <;> rfl
    · simp [hj, ih]
      cases l2 <;> rfl

theorem leerFunkos_descartados {l : List Archivo}
    (h : ∀ a ∈ l, descartado a) : leerFunkos l = [] := by
  induction l with
  | nil => rfl
  | cons a rest ih =>
    have hrest := ih fun b hb => h b (List.mem_cons_of_mem a hb)
    rcases h a (List.mem_cons_self a rest) with ha | ⟨s, ha⟩
    · unfold leerFunkos
      simp [ha, hrest]
    · unfold leerFunkos
      by_cases hj : esArchivoJson a.nombre
      · simp [hj, ha, hrest]
      · simp [hj, hrest]

/-- C2: `crearFunko` returns no record exactly when the market value is not
strictly positive, and for strictly positive market value returns a record
whose ten fields are exactly the arguments, unmodified. -/
theorem c2_crearFunko_valida (id : Int) (nombre descripcion : String)
    (tipo : TipoFunko) (genero : GeneroFunko) (franquicia : String)
    (numero : Int) (exclusivo : Bool) (caracteristicas : String)
    (valorMercado : Rat) :
    (crearFunko id nombre descripcion tipo genero franquicia numero exclusivo
        caracteristicas valorMercado = none ↔ valorMercado ≤ 0) ∧
    (0 < valorMercado →
      crearFunko id nombre descripcion tipo genero franquicia numero exclusivo
          caracteristicas valorMercado =
        some ⟨id, nombre, descripcion, tipo, genero, franquicia, numero,
          exclusivo, caracteristicas, valorMercado⟩) := by
  constructor
  · unfold crearFunko
    by_cases h : valorMercado ≤ 0 <;> simp [h]
  · intro h
    unfold crearFunko
    simp [not_le.mpr h]

/-- Witness for C2 at concrete inputs: market value `-1` is rejected and
market value `5` yields the verbatim record. -/
theorem c2_crearFunko_valida_witness :
    crearFunko 1 "a" "b" TipoFunko.Pop GeneroFunko.Anime "f" 2 true "c" (-1) = none ∧
    crearFunko 1 "a" "b" TipoFunko.Pop GeneroFunko.Anime "f" 2 true "c" 5 =
      some ⟨1, "a", "b", TipoFunko.Pop, GeneroFunko.Anime, "f", 2, true, "c", 5⟩ :=
  ⟨(c2_crearFunko_valida 1 "a" "b" TipoFunko.Pop GeneroFunko.Anime "f" 2 true "c"
      (-1)).1.mpr (by norm_num),
    (c2_crearFunko_valida 1 "a" "b" TipoFunko.Pop GeneroFunko.Anime "f" 2 true "c"
      5).2 (by norm_num)⟩

/-- C1: saving a record with strictly positive market value and then loading
the same user's collection, sequentially and with both operations
succeeding, yields a list containing that record field by field. -/
theorem c1_guardar_cargar (fs : SistemaArchivos) (usuario : String) (r : Funko)
    (hval : 0 < r.valorMercado) :
    (guardarFunko fs usuario r).2 = true ∧
    ∃ lista, (cargarFunkosUsuario (guardarFunko fs usuario r).1 usuario).2 =
        some lista ∧ r ∈ lista := by
  rw [guardar_eq]
  refine ⟨rfl, ?_⟩
  rw [cargar_eq]
  refine ⟨_, rfl, ?_⟩
  have hdir : dirUsuario
      (⟨actualizarDirectorio (obtenerDirectorioUsuario fs usuario).1.dirs usuario
        (escribirArchivo (dirUsuario fs usuario) (nombreFichero r.id)
          (Contenido.funko r))⟩ : SistemaArchivos) usuario =
      escribirArchivo (dirUsuario fs usuario) (nombreFichero r.id)
        (Contenido.funko r) := by
    simp [dirUsuario, buscar_actualizar_self]
  rw [hdir]
  exact leer_completo
    (mem_escribirArchivo_self (dirUsuario fs usuario) (nombreFichero r.id)
      (Contenido.funko r))
    rfl (esArchivoJson_nombreFichero r.id)

/-- Concrete record used by several witnesses. -/
def funkoEjemplo : Funko :=
  ⟨1, "Goku", "figura", TipoFunko.Pop, GeneroFunko.Anime, "DBZ", 33, true,
    "brilla", 10⟩

/-- Witness for C1: the round trip on an empty filesystem for user `ana`. -/
theorem c1_guardar_cargar_witness :
    (0 : Rat) < funkoEjemplo.valorMercado ∧
    ((guardarFunko ⟨[]⟩ "ana" funkoEjemplo).2 = true ∧
      ∃ lista,
        (cargarFunkosUsuario (guardarFunko ⟨[]⟩ "ana" funkoEjemplo).1 "ana").2 =
          some lista ∧ funkoEjemplo ∈ lista) :=
  ⟨by norm_num [funkoEjemplo],
    c1_guardar_cargar ⟨[]⟩ "ana" funkoEjemplo (by norm_num [funkoEjemplo])⟩

/-- C10: a request whose kind is none of the five supported ones reaches the
default branch: no storage operation runs (the state is unchanged) and the
response echoes the unknown kind, has `exito = false` and carries the fixed
message. -/
theorem c10_operacion_no_soportada (fs : SistemaArchivos) (p : TipoPeticion)
    (h1 : p.tipo ≠ "add") (h2 : p.tipo ≠ "update") (h3 : p.tipo ≠ "remove")
    (h4 : p.tipo ≠ "list") (h5 : p.tipo ≠ "read") :
    procesarPeticion fs p = (fs, ⟨p.tipo, false, "Operación no soportada.", none⟩) := by
  unfold procesarPeticion
  simp [h1, h2, h3, h4, h5]

/-- Witness for C10 at the concrete unknown kind `"foo"` on the empty
filesystem. -/
theorem c10_operacion_no_soportada_witness :
    procesarPeticion ⟨[]⟩ ⟨"foo", "ana", none, none⟩ =
      (⟨[]⟩, ⟨"foo", false, "Operación no soportada.", none⟩) :=
  c10_operacion_no_soportada ⟨[]⟩ ⟨"foo", "ana", none, none⟩
    (by decide) (by decide) (by decide) (by decide) (by decide)

/-- C9: for a user whose directory contains no record-extension file — in
particular when it is absent (freshly created on access) or empty —
`cargarFunkosUsuario` returns the empty list as a success, and the `list`
request built on it returns a success response carrying the empty record
list. -/
theorem c9_coleccion_vacia (fs : SistemaArchivos) (usuario : String)
    (h : ∀ a ∈ dirUsuario fs usuario, esArchivoJson a.nombre = false) :
    (cargarFunkosUsuario fs usuario).2 = some [] ∧
    (procesarPeticion fs ⟨"list", usuario, none, none⟩).2 =
      ⟨"list", true, "Funkos listados de " ++ usuario ++ ".", some []⟩ := by
  have hleer : leerFunkos (dirUsuario fs usuario) = [] :=
    leerFunkos_descartados fun a ha => Or.inl (h a ha)
  have hcarga : (cargarFunkosUsuario fs usuario).2 = some [] := by
    rw [cargar_eq, hleer]
  refine ⟨hcarga, ?_⟩
  unfold procesarPeticion
  simp only [cargar_eq, hleer]
  rfl

/-- Witness for C9: the empty filesystem (directory absent) and a
filesystem holding an existing empty directory, both for user `ana`. -/
theorem c9_coleccion_vacia_witness :
    ((cargarFunkosUsuario ⟨[]⟩ "ana").2 = some [] ∧
      (procesarPeticion ⟨[]⟩ ⟨"list", "ana", none, none⟩).2 =
        ⟨"list", true, "Funkos listados de ana.", some []⟩) ∧
    ((cargarFunkosUsuario ⟨[("ana", [])]⟩ "ana").2 = some [] ∧
      (procesarPeticion ⟨[("ana", [])]⟩ ⟨"list", "ana", none, none⟩).2 =
        ⟨"list", true, "Funkos listados de ana.", some []⟩) :=
  ⟨c9_coleccion_vacia ⟨[]⟩ "ana" (by intro a ha; cases ha),
    c9_coleccion_vacia ⟨[("ana", [])]⟩ "ana" (by
      intro a ha
      simp [dirUsuario, buscarDirectorio] at ha)⟩

/-- C6: a user directory holding one record-extension file whose content
fails JSON decoding, one record-extension file with a valid record, and
otherwise only skipped entries (corrupt record files or files without the
record extension, in any arrangement) yields exactly the valid record:
`cargarFunkosUsuario` succeeds, and the `list` request built on it answers
success with exactly that record. -/
theorem c6_lectura_tolerante (fs : SistemaArchivos) (usuario : String)
    (l1 l2 : List Archivo) (n1 n2 s : String) (r : Funko)
    (hdir : buscarDirectorio fs.dirs usuario =
      some (l1 ++ ⟨n2, Contenido.funko r⟩ :: l2))
    (hcorrupto : (⟨n1, Contenido.corrupto s⟩ : Archivo) ∈ l1 ++ l2)
    (h1 : esArchivoJson n1 = true) (h2 : esArchivoJson n2 = true)
    (hl1 : ∀ a ∈ l1, descartado a) (hl2 : ∀ a ∈ l2, descartado a) :
    (cargarFunkosUsuario fs usuario).2 = some [r] ∧
    (procesarPeticion fs ⟨"list", usuario, none, none⟩).2 =
      ⟨"list", true, "Funkos listados de " ++ usuario ++ ".", some [r]⟩ := by
  have hdu : dirUsuario fs usuario = l1 ++ ⟨n2, Contenido.funko r⟩ :: l2 := by
    simp [dirUsuario, hdir]
  have hleer : leerFunkos (l1 ++ ⟨n2, Contenido.funko r⟩ :: l2) = [r] := by
    rw [show (⟨n2, Contenido.funko r⟩ : Archivo) :: l2 =
      [⟨n2, Contenido.funko r⟩] ++ l2 from rfl]
    rw [leerFunkos_append, leerFunkos_append, leerFunkos_descartados hl1,
      leerFunkos_descartados hl2]
    simp [leerFunkos, h2]
  constructor
  · rw [cargar_eq, hdu, hleer]
  · unfold procesarPeticion
    simp only [cargar_eq, hdu, hleer]
    rfl

/-- Witness for C6: user `ana` with corrupt `bad.json`, valid `1.json` and
ignored `notas.txt`. -/
theorem c6_lectura_tolerante_witness :
    (cargarFunkosUsuario
        ⟨[("ana", [⟨"bad.json", Contenido.corrupto "xx"⟩,
          ⟨"1.json", Contenido.funko funkoEjemplo⟩,
          ⟨"notas.txt", Contenido.corrupto "yy"⟩])]⟩ "ana").2 =
      some [funkoEjemplo] ∧
    (procesarPeticion
        ⟨[("ana", [⟨"bad.json", Contenido.corrupto "xx"⟩,
          ⟨"1.json", Contenido.funko funkoEjemplo⟩,
          ⟨"notas.txt", Contenido.corrupto "yy"⟩])]⟩
        ⟨"list", "ana", none, none⟩).2 =
      ⟨"list", true, "Funkos listados de ana.", some [funkoEjemplo]⟩ :=
  c6_lectura_tolerante _ "ana" [⟨"bad.json", Contenido.corrupto "xx"⟩]
    [⟨"notas.txt", Contenido.corrupto "yy"⟩] "bad.json" "1.json" "xx"
    funkoEjemplo (by decide)
    (by decide) (by decide) (by decide)
    (by
      intro a ha
      rw [List.mem_singleton] at ha
      subst ha
      exact Or.inr ⟨"xx", rfl⟩)
    (by
      intro a ha
      rw [List.mem_singleton] at ha
      subst ha
      exact Or.inr ⟨"yy", rfl⟩)

theorem obtener_existente {fs : SistemaArchivos} {usuario : String}
    {d : List Archivo} (h : buscarDirectorio fs.dirs usuario = some d) :
    (obtenerDirectorioUsuario fs usuario).1 = fs := by
  unfold obtenerDirectorioUsuario
  rw [h]

theorem dirUsuario_obtener (fs : SistemaArchivos) (u : String) :
    dirUsuario (obtenerDirectorioUsuario fs u).1 u = dirUsuario fs u := by
  simp [dirUsuario, obtener_fst_dirs]

theorem procesar_add_nuevo (fs : SistemaArchivos) (u : String) (r : Funko)
    (i : Option Int)
    (h : (leerFunkos (dirUsuario fs u)).any (fun f => f.id == r.id) = false) :
    procesarPeticion fs ⟨"add", u, some r, i⟩ =
      ((guardarFunko (obtenerDirectorioUsuario fs u).1 u r).1,
        ⟨"add", true, "Funko ID " ++ toString r.id ++ " añadido a " ++ u ++ ".",
          none⟩) := by
  unfold procesarPeticion
  simp only [cargar_eq, h, guardar_eq]
  rfl

theorem procesar_add_repetido (fs : SistemaArchivos) (u : String) (r : Funko)
    (i : Option Int)
    (h : (leerFunkos (dirUsuario fs u)).any (fun f => f.id == r.id) = true) :
    procesarPeticion fs ⟨"add", u, some r, i⟩ =
      ((obtenerDirectorioUsuario fs u).1,
        ⟨"add", false,
          "El Funko con ID " ++ toString r.id ++ " ya existe para " ++ u ++ ".",
          none⟩) := by
  unfold procesarPeticion
  simp only [cargar_eq, h]
  rfl

/-- C5: from a state where the user's collection has no record with the
given identifier, two sequential `add` requests with that identifier yield
success then failure, the failed second request leaves the state exactly as
the first left it, and the record stored under that identifier is still the
one written by the first request. -/
theorem c5_add_dos_veces (fs : SistemaArchivos) (usuario : String) (r r2 : Funko)
    (hid : r2.id = r.id)
    (hnuevo : ∀ f ∈ leerFunkos (dirUsuario fs usuario), f.id ≠ r.id) :
    (procesarPeticion fs ⟨"add", usuario, some r, none⟩).2.exito = true ∧
    (procesarPeticion (procesarPeticion fs ⟨"add", usuario, some r, none⟩).1
        ⟨"add", usuario, some r2, none⟩).2.exito = false ∧
    (procesarPeticion (procesarPeticion fs ⟨"add", usuario, some r, none⟩).1
        ⟨"add", usuario, some r2, none⟩).1 =
      (procesarPeticion fs ⟨"add", usuario, some r, none⟩).1 ∧
    ∃ lista,
      (cargarFunkosUsuario
          (procesarPeticion (procesarPeticion fs ⟨"add", usuario, some r, none⟩).1
            ⟨"add", usuario, some r2, none⟩).1 usuario).2 = some lista ∧
        r ∈ lista ∧ ∀ f ∈ lista, f.id = r.id → f = r := by
  have hany : (leerFunkos (dirUsuario fs usuario)).any (fun f => f.id == r.id) =
      false := by
    rw [List.any_eq_false]
    intro f hf
    simpa using hnuevo f hf
  have hpaso1 := procesar_add_nuevo fs usuario r none hany
  rw [hpaso1]
  -- State after the first add, and its directory for the user.
  rw [guardar_eq, dirUsuario_obtener]
  set dir1 := escribirArchivo (dirUsuario fs usuario) (nombreFichero r.id)
    (Contenido.funko r) with hdir1
  set fs1 : SistemaArchivos :=
    ⟨actualizarDirectorio
      (obtenerDirectorioUsuario (obtenerDirectorioUsuario fs usuario).1
        usuario).1.dirs usuario dir1⟩
    with hfs1
  have hbuscar1 : buscarDirectorio fs1.dirs usuario = some dir1 :=
    buscar_actualizar_self _ usuario dir1
  have hdu1 : dirUsuario fs1 usuario = dir1 := by
    simp [dirUsuario, hbuscar1]
  have hrmem : r ∈ leerFunkos dir1 :=
    leer_completo (mem_escribirArchivo_self _ _ _) rfl
      (esArchivoJson_nombreFichero r.id)
  have hany2 : (leerFunkos (dirUsuario fs1 usuario)).any
      (fun f => f.id == r2.id) = true := by
    rw [hdu1, List.any_eq_true]
    exact ⟨r, hrmem, by simp [hid]⟩
  have hpaso2 := procesar_add_repetido fs1 usuario r2 none hany2
  rw [hpaso2, obtener_existente hbuscar1]
  refine ⟨rfl, rfl, rfl, leerFunkos dir1, ?_, hrmem, ?_⟩
  · rw [cargar_eq, hdu1]
  · intro f hf hfid
    rcases mem_leerFunkos_escribir hf with h2 | h2
    · exact h2
    · exact absurd hfid (hnuevo f h2)

/-- Second concrete record sharing the identifier of `funkoEjemplo`. -/
def funkoEjemplo2 : Funko :=
  ⟨1, "Vegeta", "otra figura", TipoFunko.VynilSoda, GeneroFunko.Anime, "DBZ",
    34, false, "cabeza balancea", 7⟩

/-- Witness for C5: both `add` requests on the empty filesystem for user
`ana`, with two different payloads sharing identifier `1`. -/
theorem c5_add_dos_veces_witness :
    (procesarPeticion ⟨[]⟩ ⟨"add", "ana", some funkoEjemplo, none⟩).2.exito = true ∧
    (procesarPeticion
        (procesarPeticion ⟨[]⟩ ⟨"add", "ana", some funkoEjemplo, none⟩).1
        ⟨"add", "ana", some funkoEjemplo2, none⟩).2.exito = false ∧
    (procesarPeticion
        (procesarPeticion ⟨[]⟩ ⟨"add", "ana", some funkoEjemplo, none⟩).1
        ⟨"add", "ana", some funkoEjemplo2, none⟩).1 =
      (procesarPeticion ⟨[]⟩ ⟨"add", "ana", some funkoEjemplo, none⟩).1 ∧
    ∃ lista,
      (cargarFunkosUsuario
          (procesarPeticion
            (procesarPeticion ⟨[]⟩ ⟨"add", "ana", some funkoEjemplo, none⟩).1
            ⟨"add", "ana", some funkoEjemplo2, none⟩).1 "ana").2 = some lista ∧
        funkoEjemplo ∈ lista ∧
        ∀ f ∈ lista, f.id = funkoEjemplo.id → f = funkoEjemplo :=
  c5_add_dos_veces ⟨[]⟩ "ana" funkoEjemplo funkoEjemplo2 (by decide) (by decide)

/-- C7: from any buffer state without a pending line feed, a chunk carrying
two complete line-feed-delimited messages back-to-back (plus a trailing
partial message) makes the `data` handler dispatch exactly the two decoded
requests, in stream order, and retain exactly the bytes after the last
line feed. -/
theorem c7_framing_dos_mensajes (dec : List Char → Option TipoPeticion)
    (fs : SistemaArchivos) (b m1 m2 t : List Char) (p1 p2 : TipoPeticion)
    (hb : '\n' ∉ b) (hm1 : '\n' ∉ m1) (hm2 : '\n' ∉ m2) (ht : '\n' ∉ t)
    (hd1 : dec (b ++ m1) = some p1) (hd2 : dec m2 = some p2) :
    manejarData dec fs b (m1 ++ '\n' :: (m2 ++ '\n' :: t)) =
      ((procesarPeticion (procesarPeticion fs p1).1 p2).1, t,
        [(procesarPeticion fs p1).2,
          (procesarPeticion (procesarPeticion fs p1).1 p2).2]) := by
  unfold manejarData
  have hext : extraerMensajes (b ++ (m1 ++ '\n' :: (m2 ++ '\n' :: t))) =
      ([b ++ m1, m2], t) := by
    rw [← List.append_assoc]
    rw [extraerMensajes_append _ (by simp [List.mem_append, hb, hm1])]
    rw [extraerMensajes_append _ hm2]
    rw [extraerMensajes_sin_salto ht]
  rw [hext]
  simp only [procesarMensajes, procesarMensaje, hd1, hd2]

/-- C8: a framed message whose content fails JSON decoding does not reach
the dispatcher: the handler answers with the synthesized failure response
(kind defaulted to `"list"`, `exito = false`), leaves the state untouched,
and the next complete message in the same chunk is decoded and dispatched
normally. -/
theorem c8_mensaje_malformado (dec : List Char → Option TipoPeticion)
    (fs : SistemaArchivos) (b m1 m2 t : List Char) (p2 : TipoPeticion)
    (hb : '\n' ∉ b) (hm1 : '\n' ∉ m1) (hm2 : '\n' ∉ m2) (ht : '\n' ∉ t)
    (hd1 : dec (b ++ m1) = none) (hd2 : dec m2 = some p2) :
    manejarData dec fs b (m1 ++ '\n' :: (m2 ++ '\n' :: t)) =
      ((procesarPeticion fs p2).1, t,
        [⟨"list", false, "Error al parsear JSON de la petición.", none⟩,
          (procesarPeticion fs p2).2]) := by
  unfold manejarData
  have hext : extraerMensajes (b ++ (m1 ++ '\n' :: (m2 ++ '\n' :: t))) =
      ([b ++ m1, m2], t) := by
    rw [← List.append_assoc]
    rw [extraerMensajes_append _ (by simp [List.mem_append, hb, hm1])]
    rw [extraerMensajes_append _ hm2]
    rw [extraerMensajes_sin_salto ht]
  rw [hext]
  simp only [procesarMensajes, procesarMensaje, hd1, hd2]

/-- Concrete decoder standing in for `JSON.parse` in the framing witnesses:
the one-character message `L` decodes to a `list` request for user `ana`;
everything else fails to decode. -/
def decPrueba (l : List Char) : Option TipoPeticion :=
  if l = ['L'] then some ⟨"list", "ana", none, none⟩ else none

/-- Witness for C7: empty buffer, chunk `L\nL\n` on the empty filesystem. -/
theorem c7_framing_dos_mensajes_witness :
    manejarData decPrueba ⟨[]⟩ []
        (['L'] ++ '\n' :: (['L'] ++ '\n' :: [])) =
      ((procesarPeticion
          (procesarPeticion ⟨[]⟩ ⟨"list", "ana", none, none⟩).1
          ⟨"list", "ana", none, none⟩).1, [],
        [(procesarPeticion ⟨[]⟩ ⟨"list", "ana", none, none⟩).2,
          (procesarPeticion
            (procesarPeticion ⟨[]⟩ ⟨"list", "ana", none, none⟩).1
            ⟨"list", "ana", none, none⟩).2]) :=
  c7_framing_dos_mensajes decPrueba ⟨[]⟩ [] ['L'] ['L'] []
    ⟨"list", "ana", none, none⟩ ⟨"list", "ana", none, none⟩
    (by decide) (by decide) (by decide) (by decide) (by decide) (by decide)

/-- Witness for C8: empty buffer, chunk `X\nL\n` where `X` fails to decode
and `L` decodes to a `list` request. -/
theorem c8_mensaje_malformado_witness :
    manejarData decPrueba ⟨[]⟩ []
        (['X'] ++ '\n' :: (['L'] ++ '\n' :: [])) =
      ((procesarPeticion ⟨[]⟩ ⟨"list", "ana", none, none⟩).1, [],
        [⟨"list", false, "Error al parsear JSON de la petición.", none⟩,
          (procesarPeticion ⟨[]⟩ ⟨"list", "ana", none, none⟩).2]) :=
  c8_mensaje_malformado decPrueba ⟨[]⟩ [] ['X'] ['L'] []
    ⟨"list", "ana", none, none⟩
    (by decide) (by decide) (by decide) (by decide) (by decide) (by decide)

theorem nombres_escribir {dir : List Archivo} {n : String} (c : Contenido)
    (h : n ∈ dir.map Archivo.nombre) :
    (escribirArchivo dir n c).map Archivo.nombre = dir.map Archivo.nombre := by
  induction dir with
  | nil => cases h
  | cons b rest ih =>
    unfold escribirArchivo
    by_cases hb : b.nombre = n
    · simp [hb]
    · have h2 : n ∈ rest.map Archivo.nombre := by
        rcases List.mem_map.mp h with ⟨a, ha, hname⟩
        rcases List.mem_cons.mp ha with ha | ha
        · exact absurd (ha ▸ hname) hb
        · exact List.mem_map.mpr ⟨a, ha, hname⟩
      simp [hb, ih h2]

theorem escribir_en_nombre {dir : List Archivo} {n : String} {c : Contenido}
    (hnodup : (dir.map Archivo.nombre).Nodup) :
    ∀ a ∈ escribirArchivo dir n c, a.nombre = n → a = ⟨n, c⟩ := by
  induction dir with
  | nil =>
    intro a ha hname
    simp only [escribirArchivo, List.mem_singleton] at ha
    exact ha
  | cons b rest ih =>
    rw [List.map_cons, List.nodup_cons] at hnodup
    intro a ha hname
    unfold escribirArchivo at ha
    by_cases hb : b.nombre = n
    · rw [if_pos hb, List.mem_cons] at ha
      rcases ha with ha | ha
      · exact ha
      · have : b.nombre ∈ rest.map Archivo.nombre := by
          rw [hb, ← hname]
          exact List.mem_map.mpr ⟨a, ha, rfl⟩
        exact absurd this hnodup.1
    · rw [if_neg hb, List.mem_cons] at ha
      rcases ha with ha | ha
      · exact absurd (ha ▸ hname) hb
      · exact ih hnodup.2 a ha hname

theorem escribir_otro_nombre {dir : List Archivo} {n : String} {c : Contenido} :
    ∀ a ∈ escribirArchivo dir n c, a.nombre ≠ n → a ∈ dir := by
  intro a ha hname
  rcases mem_escribirArchivo ha with h | h
  · exact absurd (by rw [h]) hname
  · exact h

theorem procesar_update_existente (fs : SistemaArchivos) (u : String)
    (r : Funko) (id : Int)
    (h : (leerFunkos (dirUsuario fs u)).any (fun f => f.id == id) = true) :
    procesarPeticion fs ⟨"update", u, some r, some id⟩ =
      ((guardarFunko (obtenerDirectorioUsuario fs u).1 u r).1,
        ⟨"update", true,
          "Funko ID " ++ toString id ++ " actualizado en " ++ u ++ ".", none⟩) := by
  unfold procesarPeticion
  simp only [cargar_eq, h, guardar_eq]
  rfl

/-- Record with identifier `2`, used by the C4 counterexample. -/
def funkoOtroId : Funko :=
  ⟨2, "Vegeta", "otra figura", TipoFunko.VynilSoda, GeneroFunko.Anime, "DBZ",
    34, false, "cabeza balancea", 7⟩

/-- Filesystem holding exactly `datos/ana/1.json` with `funkoEjemplo`. -/
def fsUnFunko : SistemaArchivos :=
  ⟨[("ana", [⟨"1.json", Contenido.funko funkoEjemplo⟩])]⟩

/-- Counterexample to C4 as stated: a successful `update` targeting
identifier `1` whose payload carries identifier `2` reports success, yet it
creates a new record file `2.json` and leaves the record of identifier `1`
unreplaced — the collection is not the previous one with record `1`
replaced, and a new record file is created. -/
theorem c4_contraejemplo :
    (procesarPeticion fsUnFunko ⟨"update", "ana", some funkoOtroId, some 1⟩).2.exito =
      true ∧
    buscarDirectorio
        (procesarPeticion fsUnFunko
          ⟨"update", "ana", some funkoOtroId, some 1⟩).1.dirs "ana" =
      some [⟨"1.json", Contenido.funko funkoEjemplo⟩,
        ⟨"2.json", Contenido.funko funkoOtroId⟩] := by
  constructor
  · rfl
  · rfl

/-- C4 (amended): a successful `update` whose payload identifier equals the
target identifier — as the provided client always sends — and whose target
record is stored, under uniquely named files, in the file named after the
identifier, overwrites that file in place: afterwards the user's directory
has exactly the same file names (no file created or removed), the file
named after the identifier holds the new record, and every other file is
unchanged. -/
theorem c4_update_sobrescribe (fs : SistemaArchivos) (usuario : String)
    (r fViejo : Funko) (id : Int) (hid : r.id = id)
    (hnodup : ((dirUsuario fs usuario).map Archivo.nombre).Nodup)
    (hfile : (⟨nombreFichero id, Contenido.funko fViejo⟩ : Archivo) ∈
      dirUsuario fs usuario)
    (hfid : fViejo.id = id) :
    (procesarPeticion fs ⟨"update", usuario, some r, some id⟩).2 =
      ⟨"update", true,
        "Funko ID " ++ toString id ++ " actualizado en " ++ usuario ++ ".",
        none⟩ ∧
    ∃ dir2,
      buscarDirectorio
          (procesarPeticion fs ⟨"update", usuario, some r, some id⟩).1.dirs
          usuario = some dir2 ∧
      dir2.map Archivo.nombre = (dirUsuario fs usuario).map Archivo.nombre ∧
      (∀ a ∈ dir2, a.nombre = nombreFichero id →
        a.contenido = Contenido.funko r) ∧
      (∀ a ∈ dir2, a.nombre ≠ nombreFichero id → a ∈ dirUsuario fs usuario) := by
  have hany : (leerFunkos (dirUsuario fs usuario)).any
      (fun f => f.id == id) = true := by
    rw [List.any_eq_true]
    refine ⟨fViejo, ?_, by simp [hfid]⟩
    exact leer_completo hfile rfl (esArchivoJson_nombreFichero id)
  rw [procesar_update_existente fs usuario r id hany, guardar_eq,
    dirUsuario_obtener, hid]
  refine ⟨rfl, escribirArchivo (dirUsuario fs usuario) (nombreFichero id)
    (Contenido.funko r), buscar_actualizar_self _ _ _, ?_, ?_, ?_⟩
  · exact nombres_escribir _ (List.mem_map.mpr ⟨_, hfile, rfl⟩)
  · intro a ha hname
    rw [escribir_en_nombre hnodup a ha hname]
  · exact fun a ha hname => escribir_otro_nombre a ha hname

/-- Witness for C4 (amended): updating record `1` of `fsUnFunko` with a new
payload that keeps identifier `1`. -/
theorem c4_update_sobrescribe_witness :
    (procesarPeticion fsUnFunko ⟨"update", "ana", some funkoEjemplo2, some 1⟩).2 =
      ⟨"update", true, "Funko ID 1 actualizado en ana.", none⟩ ∧
    ∃ dir2,
      buscarDirectorio
          (procesarPeticion fsUnFunko
            ⟨"update", "ana", some funkoEjemplo2, some 1⟩).1.dirs "ana" =
        some dir2 ∧
      dir2.map Archivo.nombre =
        ((dirUsuario fsUnFunko "ana").map Archivo.nombre) ∧
      (∀ a ∈ dir2, a.nombre = nombreFichero 1 →
        a.contenido = Contenido.funko funkoEjemplo2) ∧
      (∀ a ∈ dir2, a.nombre ≠ nombreFichero 1 → a ∈ dirUsuario fsUnFunko "ana") :=
  c4_update_sobrescribe fsUnFunko "ana" funkoEjemplo2 funkoEjemplo 1
    (by decide) (by decide) (by decide) (by decide)

/-- Record with non-positive market value, used by the C3 counterexample. -/
def funkoNegativo : Funko :=
  ⟨1, "Goku", "figura", TipoFunko.Pop, GeneroFunko.Anime, "DBZ", 33, true,
    "brilla", -1⟩

/-- Counterexample to C3 as stated: an `add` request whose record payload
has market value `-1` is processed by the dispatcher with success and the
record is written to storage — no market-value check guards the request
path through `procesarPeticion` and `guardarFunko`. -/
theorem c3_contraejemplo :
    funkoNegativo.valorMercado ≤ 0 ∧
    (procesarPeticion ⟨[]⟩ ⟨"add", "ana", some funkoNegativo, none⟩).2.exito =
      true ∧
    buscarDirectorio
        (procesarPeticion ⟨[]⟩ ⟨"add", "ana", some funkoNegativo, none⟩).1.dirs
        "ana" =
      some [⟨"1.json", Contenido.funko funkoNegativo⟩] := by
  refine ⟨by norm_num [funkoNegativo], rfl, rfl⟩

/-- C3 (amended): the dispatcher performs no market-value check of its own;
the guard lives in `crearFunko`, so an `add` request whose payload was
built by `crearFunko` from a non-positive market value carries no record,
is rejected by the dispatcher with the missing-payload failure, and leaves
storage untouched. A record payload with non-positive market value that
does reach the dispatcher is saved like any other. -/
theorem c3_add_valor_no_positivo (fs : SistemaArchivos) (usuario : String)
    (id : Int) (nombre descripcion : String) (tipo : TipoFunko)
    (genero : GeneroFunko) (franquicia : String) (numero : Int)
    (exclusivo : Bool) (caracteristicas : String) (valorMercado : Rat)
    (hval : valorMercado ≤ 0) :
    crearFunko id nombre descripcion tipo genero franquicia numero exclusivo
        caracteristicas valorMercado = none ∧
    procesarPeticion fs
        ⟨"add", usuario,
          crearFunko id nombre descripcion tipo genero franquicia numero
            exclusivo caracteristicas valorMercado, none⟩ =
      (fs, ⟨"add", false, "No se recibió Funko para añadir.", none⟩) := by
  have hnone : crearFunko id nombre descripcion tipo genero franquicia numero
      exclusivo caracteristicas valorMercado = none := by
    unfold crearFunko
    simp [hval]
  refine ⟨hnone, ?_⟩
  rw [hnone]
  rfl

/-- Witness for C3 (amended): market value `-2` for user `ana` on the empty
filesystem. -/
theorem c3_add_valor_no_positivo_witness :
    crearFunko 1 "a" "b" TipoFunko.Pop GeneroFunko.Anime "f" 2 true "c" (-2) =
      none ∧
    procesarPeticion ⟨[]⟩
        ⟨"add", "ana",
          crearFunko 1 "a" "b" TipoFunko.Pop GeneroFunko.Anime "f" 2 true "c"
            (-2), none⟩ =
      (⟨[]⟩, ⟨"add", false, "No se recibió Funko para añadir.", none⟩) :=
  c3_add_valor_no_positivo ⟨[]⟩ "ana" 1 "a" "b" TipoFunko.Pop GeneroFunko.Anime
    "f" 2 true "c" (-2) (by norm_num)
